import Mathlib

/-!
# gpython `hashlib` module: dispatch and hash-object layer

A shallow embedding of `hashlib/hashlib.go` (package `hashlib` of gpython):
the generic constructor `hashlib_new`, the six named constructors and the
method table registered by `init`.

The Go standard-library hash primitives (`crypto/md5`, `crypto/sha1`,
`crypto/sha256`, `crypto/sha512`), `fmt.Sprintf` and the helpers of package
`py` are not part of `hashlib.go`.  The primitives are embedded as executable
streaming models of the algorithms the spec names (RFC 1321, FIPS 180-4); the
`py` helpers are embedded as small models, and `py.BytesFromObject` is taken as
a parameter of every function of `hashlib.go` that calls it.
-/

set_option linter.unusedVariables false

namespace Hashlib

/-! ## Bytes and machine words -/

/-- Go `[]byte` (and `py.Bytes`). -/
abbrev Bytes := List UInt8

/-- Big-endian value of a byte string (`binary.BigEndian.UintN`). -/
def beWord (bs : List Nat) : Nat := bs.foldl (fun acc b => acc * 256 + b) 0

/-- Little-endian value of a byte string (`binary.LittleEndian.UintN`). -/
def leWord (bs : List Nat) : Nat := bs.foldr (fun b acc => acc * 256 + b) 0

/-- The sixteen words of one block, each `wb` bytes wide, decoded by `dec`. -/
def blockWords (dec : List Nat → Nat) (wb : Nat) (p : List Nat) : List Nat :=
  (List.range 16).map (fun i => dec ((p.drop (wb * i)).take wb))

/-- `binary.BigEndian.PutUintN`: the `n` bytes of `w`, most significant first. -/
def putBE (n w : Nat) : Bytes :=
  (List.range n).map (fun i => UInt8.ofNat (w >>> (8 * (n - 1 - i))))

/-- `binary.LittleEndian.PutUintN`: the `n` bytes of `w`, least significant first. -/
def putLE (n w : Nat) : Bytes :=
  (List.range n).map (fun i => UInt8.ofNat (w >>> (8 * i)))

/-- Rotate the `bits`-bit word `x` left by `n` (`bits.RotateLeft`). -/
def rotl (bits x n : Nat) : Nat :=
  ((x <<< n) ||| (x >>> (bits - n))) % 2 ^ bits

/-- Rotate the `bits`-bit word `x` right by `n`. -/
def rotr (bits x n : Nat) : Nat :=
  ((x >>> n) ||| (x <<< (bits - n))) % 2 ^ bits

/-- Bitwise complement of a `bits`-bit word (Go `^x`). -/
def wnot (bits x : Nat) : Nat := x ^^^ (2 ^ bits - 1)

/-- Component-wise sum of two word vectors modulo `2 ^ bits`. -/
def addWords (bits : Nat) : List Nat → List Nat → List Nat
  | a :: as, b :: bs => (a + b) % 2 ^ bits :: addWords bits as bs
  | _, _ => []

/-! ## `crypto/sha256` block function -/

namespace sha256

def _K : List Nat :=
  [0x428a2f98, 0x71374491, 0xb5c0fbcf, 0xe9b5dba5, 0x3956c25b, 0x59f111f1, 0x923f82a4, 0xab1c5ed5,
   0xd807aa98, 0x12835b01, 0x243185be, 0x550c7dc3, 0x72be5d74, 0x80deb1fe, 0x9bdc06a7, 0xc19bf174,
   0xe49b69c1, 0xefbe4786, 0x0fc19dc6, 0x240ca1cc, 0x2de92c6f, 0x4a7484aa, 0x5cb0a9dc, 0x76f988da,
   0x983e5152, 0xa831c66d, 0xb00327c8, 0xbf597fc7, 0xc6e00bf3, 0xd5a79147, 0x06ca6351, 0x14292967,
   0x27b70a85, 0x2e1b2138, 0x4d2c6dfc, 0x53380d13, 0x650a7354, 0x766a0abb, 0x81c2c92e, 0x92722c85,
   0xa2bfe8a1, 0xa81a664b, 0xc24b8b70, 0xc76c51a3, 0xd192e819, 0xd6990624, 0xf40e3585, 0x106aa070,
   0x19a4c116, 0x1e376c08, 0x2748774c, 0x34b0bcb5, 0x391c0cb3, 0x4ed8aa4a, 0x5b9cca4f, 0x682e6ff3,
   0x748f82ee, 0x78a5636f, 0x84c87814, 0x8cc70208, 0x90befffa, 0xa4506ceb, 0xbef9a3f7, 0xc67178f2]

/-- Message schedule: `n` further words from the window of the last sixteen. -/
def schedule : Nat → List Nat → List Nat
  | 0, _ => []
  | n + 1, win =>
    match win with
    | w0 :: w1 :: rest =>
      let w9 := rest.getD 7 0
      let w14 := rest.getD 12 0
      let t1 := rotr 32 w14 17 ^^^ rotr 32 w14 19 ^^^ (w14 >>> 10)
      let t2 := rotr 32 w1 7 ^^^ rotr 32 w1 18 ^^^ (w1 >>> 3)
      let w := (t1 + w9 + t2 + w0) % 2 ^ 32
      w :: schedule n (w1 :: rest ++ [w])
    | _ => []

/-- One round of the compression loop on the working variables `a .. h`. -/
def round (s : List Nat) (kw : Nat × Nat) : List Nat :=
  match s with
  | [a, b, c, d, e, f, g, h] =>
    let t1 := h + (rotr 32 e 6 ^^^ rotr 32 e 11 ^^^ rotr 32 e 25)
                + ((e &&& f) ^^^ (wnot 32 e &&& g)) + kw.1 + kw.2
    let t2 := (rotr 32 a 2 ^^^ rotr 32 a 13 ^^^ rotr 32 a 22)
                + ((a &&& b) ^^^ (a &&& c) ^^^ (b &&& c))
    [(t1 + t2) % 2 ^ 32, a, b, c, (d + t1) % 2 ^ 32, e, f, g]
  | _ => s

/-- Modelled from the spec: the SHA-224/SHA-256 primitive of spec §1 (Go
`crypto/sha256`, outside `hashlib.go`), its block function after FIPS 180-4:
process one 64-byte block `p` into the chaining value `h`. -/
def block (h : List Nat) (p : List Nat) : List Nat :=
  let w16 := blockWords beWord 4 p
  let w := w16 ++ schedule 48 w16
  addWords 32 h ((_K.zip w).foldl round h)

end sha256

/-! ## `crypto/sha512` block function -/

namespace sha512

def _K : List Nat :=
  [0x428a2f98d728ae22, 0x7137449123ef65cd, 0xb5c0fbcfec4d3b2f, 0xe9b5dba58189dbbc,
   0x3956c25bf348b538, 0x59f111f1b605d019, 0x923f82a4af194f9b, 0xab1c5ed5da6d8118,
   0xd807aa98a3030242, 0x12835b0145706fbe, 0x243185be4ee4b28c, 0x550c7dc3d5ffb4e2,
   0x72be5d74f27b896f, 0x80deb1fe3b1696b1, 0x9bdc06a725c71235, 0xc19bf174cf692694,
   0xe49b69c19ef14ad2, 0xefbe4786384f25e3, 0x0fc19dc68b8cd5b5, 0x240ca1cc77ac9c65,
   0x2de92c6f592b0275, 0x4a7484aa6ea6e483, 0x5cb0a9dcbd41fbd4, 0x76f988da831153b5,
   0x983e5152ee66dfab, 0xa831c66d2db43210, 0xb00327c898fb213f, 0xbf597fc7beef0ee4,
   0xc6e00bf33da88fc2, 0xd5a79147930aa725, 0x06ca6351e003826f, 0x142929670a0e6e70,
   0x27b70a8546d22ffc, 0x2e1b21385c26c926, 0x4d2c6dfc5ac42aed, 0x53380d139d95b3df,
   0x650a73548baf63de, 0x766a0abb3c77b2a8, 0x81c2c92e47edaee6, 0x92722c851482353b,
   0xa2bfe8a14cf10364, 0xa81a664bbc423001, 0xc24b8b70d0f89791, 0xc76c51a30654be30,
   0xd192e819d6ef5218, 0xd69906245565a910, 0xf40e35855771202a, 0x106aa07032bbd1b8,
   0x19a4c116b8d2d0c8, 0x1e376c085141ab53, 0x2748774cdf8eeb99, 0x34b0bcb5e19b48a8,
   0x391c0cb3c5c95a63, 0x4ed8aa4ae3418acb, 0x5b9cca4f7763e373, 0x682e6ff3d6b2b8a3,
   0x748f82ee5defb2fc, 0x78a5636f43172f60, 0x84c87814a1f0ab72, 0x8cc702081a6439ec,
   0x90befffa23631e28, 0xa4506cebde82bde9, 0xbef9a3f7b2c67915, 0xc67178f2e372532b,
   0xca273eceea26619c, 0xd186b8c721c0c207, 0xeada7dd6cde0eb1e, 0xf57d4f7fee6ed178,
   0x06f067aa72176fba, 0x0a637dc5a2c898a6, 0x113f9804bef90dae, 0x1b710b35131c471b,
   0x28db77f523047d84, 0x32caab7b40c72493, 0x3c9ebe0a15c9bebc, 0x431d67c49c100d4c,
   0x4cc5d4becb3e42b6, 0x597f299cfc657e2a, 0x5fcb6fab3ad6faec, 0x6c44198c4a475817]

/-- Message schedule: `n` further words from the window of the last sixteen. -/
def schedule : Nat → List Nat → List Nat
  | 0, _ => []
  | n + 1, win =>
    match win with
    | w0 :: w1 :: rest =>
      let w9 := rest.getD 7 0
      let w14 := rest.getD 12 0
      let t1 := rotr 64 w14 19 ^^^ rotr 64 w14 61 ^^^ (w14 >>> 6)
      let t2 := rotr 64 w1 1 ^^^ rotr 64 w1 8 ^^^ (w1 >>> 7)
      let w := (t1 + w9 + t2 + w0) % 2 ^ 64
      w :: schedule n (w1 :: rest ++ [w])
    | _ => []

/-- One round of the compression loop on the working variables `a .. h`. -/
def round (s : List Nat) (kw : Nat × Nat) : List Nat :=
  match s with
  | [a, b, c, d, e, f, g, h] =>
    let t1 := h + (rotr 64 e 14 ^^^ rotr 64 e 18 ^^^ rotr 64 e 41)
                + ((e &&& f) ^^^ (wnot 64 e &&& g)) + kw.1 + kw.2
    let t2 := (rotr 64 a 28 ^^^ rotr 64 a 34 ^^^ rotr 64 a 39)
                + ((a &&& b) ^^^ (a &&& c) ^^^ (b &&& c))
    [(t1 + t2) % 2 ^ 64, a, b, c, (d + t1) % 2 ^ 64, e, f, g]
  | _ => s

/-- Modelled from the spec: the SHA-384/SHA-512 primitive of spec §1 (Go
`crypto/sha512`, outside `hashlib.go`), its block function after FIPS 180-4:
process one 128-byte block `p` into the chaining value `h`. -/
def block (h : List Nat) (p : List Nat) : List Nat :=
  let w16 := blockWords beWord 8 p
  let w := w16 ++ schedule 64 w16
  addWords 64 h ((_K.zip w).foldl round h)

end sha512

/-! ## `crypto/sha1` block function -/

namespace sha1

/-- Message schedule: `n` further words from the window of the last sixteen. -/
def schedule : Nat → List Nat → List Nat
  | 0, _ => []
  | n + 1, win =>
    match win with
    | w0 :: rest =>
      let w := rotl 32 (rest.getD 12 0 ^^^ rest.getD 7 0 ^^^ rest.getD 1 0 ^^^ w0) 1
      w :: schedule n (rest ++ [w])
    | _ => []

/-- Round `iw.1` of the eighty, with message word `iw.2`. -/
def round (s : List Nat) (iw : Nat × Nat) : List Nat :=
  match s with
  | [a, b, c, d, e] =>
    let i := iw.1
    let f := if i < 20 then (b &&& c) ||| (wnot 32 b &&& d)
             else if i < 40 then b ^^^ c ^^^ d
             else if i < 60 then ((b ||| c) &&& d) ||| (b &&& c)
             else b ^^^ c ^^^ d
    let k := if i < 20 then 0x5A827999 else if i < 40 then 0x6ED9EBA1
             else if i < 60 then 0x8F1BBCDC else 0xCA62C1D6
    let t := (rotl 32 a 5 + f + e + iw.2 + k) % 2 ^ 32
    [t, a, rotl 32 b 30, c, d]
  | _ => s

/-- Modelled from the spec: the SHA-1 primitive of spec §1 (Go `crypto/sha1`,
outside `hashlib.go`), its block function after FIPS 180-4: process one
64-byte block `p` into the chaining value `h`. -/
def block (h : List Nat) (p : List Nat) : List Nat :=
  let w16 := blockWords beWord 4 p
  let w := w16 ++ schedule 64 w16
  addWords 32 h (((List.range 80).zip w).foldl round h)

end sha1

/-! ## `crypto/md5` block function -/

namespace md5

/-- The sine table of RFC 1321. -/
def table : List Nat :=
  [0xd76aa478, 0xe8c7b756, 0x242070db, 0xc1bdceee, 0xf57c0faf, 0x4787c62a, 0xa8304613, 0xfd469501,
   0x698098d8, 0x8b44f7af, 0xffff5bb1, 0x895cd7be, 0x6b901122, 0xfd987193, 0xa679438e, 0x49b40821,
   0xf61e2562, 0xc040b340, 0x265e5a51, 0xe9b6c7aa, 0xd62f105d, 0x02441453, 0xd8a1e681, 0xe7d3fbc8,
   0x21e1cde6, 0xc33707d6, 0xf4d50d87, 0x455a14ed, 0xa9e3e905, 0xfcefa3f8, 0x676f02d9, 0x8d2a4c8a,
   0xfffa3942, 0x8771f681, 0x6d9d6122, 0xfde5380c, 0xa4beea44, 0x4bdecfa9, 0xf6bb4b60, 0xbebfbc70,
   0x289b7ec6, 0xeaa127fa, 0xd4ef3085, 0x04881d05, 0xd9d4d039, 0xe6db99e5, 0x1fa27cf8, 0xc4ac5665,
   0xf4292244, 0x432aff97, 0xab9423a7, 0xfc93a039, 0x655b59c3, 0x8f0ccc92, 0xffeff47d, 0x85845dd1,
   0x6fa87e4f, 0xfe2ce6e0, 0xa3014314, 0x4e0811a1, 0xf7537e82, 0xbd3af235, 0x2ad7d2bb, 0xeb86d391]

/-- Per-round left-rotation amounts, four per round. -/
def shifts : List Nat :=
  [7, 12, 17, 22, 5, 9, 14, 20, 4, 11, 16, 23, 6, 10, 15, 21]

/-- Step `it.1` of the sixty-four, with table entry `it.2`, on the block words `x`. -/
def step (x : List Nat) (s : List Nat) (it : Nat × Nat) : List Nat :=
  match s with
  | [a, b, c, d] =>
    let i := it.1
    let r := i / 16
    let f := if r = 0 then (b &&& c) ||| (wnot 32 b &&& d)
             else if r = 1 then (b &&& d) ||| (c &&& wnot 32 d)
             else if r = 2 then b ^^^ c ^^^ d
             else c ^^^ (b ||| wnot 32 d)
    let g := if r = 0 then i
             else if r = 1 then (5 * i + 1) % 16
             else if r = 2 then (3 * i + 5) % 16
             else (7 * i) % 16
    let sh := shifts.getD (4 * r + i % 4) 0
    let t := (a + f + x.getD g 0 + it.2) % 2 ^ 32
    [d, (b + rotl 32 t sh) % 2 ^ 32, b, c]
  | _ => s

/-- Modelled from the spec: the MD5 primitive of spec §1 (Go `crypto/md5`,
outside `hashlib.go`), its block function after RFC 1321: process one 64-byte
block `p` into the chaining value `h`. -/
def block (h : List Nat) (p : List Nat) : List Nat :=
  let x := blockWords leWord 4 p
  addWords 32 h (((List.range 64).zip table).foldl (step x) h)

end md5

/-! ## The value behind Go's `hash.Hash` interface -/

/-- The six primitives `hashlib.go` constructs. -/
inductive Algorithm
  | md5 | sha1 | sha224 | sha256 | sha384 | sha512
  deriving DecidableEq, Repr

namespace Algorithm

/-- `BlockSize()`: the chunk length in bytes. -/
def BlockSize : Algorithm → Nat
  | md5 | sha1 | sha224 | sha256 => 64
  | sha384 | sha512 => 128

/-- `Size()`: the digest length in bytes (`md5.Size`, `sha1.Size`, `sha256.Size224`,
`sha256.Size`, `sha512.Size384`, `sha512.Size`). -/
def Size : Algorithm → Nat
  | md5 => 16
  | sha1 => 20
  | sha224 => 28
  | sha256 => 32
  | sha384 => 48
  | sha512 => 64

/-- The block function of the package that implements the algorithm. -/
def block : Algorithm → List Nat → List Nat → List Nat
  | md5 => Hashlib.md5.block
  | sha1 => Hashlib.sha1.block
  | sha224 | sha256 => Hashlib.sha256.block
  | sha384 | sha512 => Hashlib.sha512.block

/-- Width in bytes of the length field that ends the padding. -/
def lenBytes : Algorithm → Nat
  | sha384 | sha512 => 16
  | _ => 8

end Algorithm

namespace hash

/-- Modelled from the spec: the incremental hash primitive of spec §1 (the
`digest` value of Go's `crypto/*` packages behind a `hash.Hash` interface,
outside `hashlib.go`): the algorithm, the chaining value `h`, the buffered
bytes `x[:nx]` of the current incomplete block and the number `len` of bytes
written so far (a `uint64`). -/
structure Hash where
  alg : Algorithm
  h : List Nat
  x : Bytes
  len : Nat
  deriving DecidableEq, Repr

end hash

/-- Consume every complete block at the front of `p`, at most `fuel` of them;
returns the chaining value and the bytes left over. -/
def blocks (alg : Algorithm) : Nat → List Nat → Bytes → List Nat × Bytes
  | 0, h, p => (h, p)
  | fuel + 1, h, p =>
    if alg.BlockSize ≤ p.length then
      blocks alg fuel (alg.block h ((p.take alg.BlockSize).map UInt8.toNat))
        (p.drop alg.BlockSize)
    else (h, p)

namespace hash.Hash

/-- Modelled from the spec: `Write(p)` of the primitive (spec §1: it accepts
bytes).  Complete blocks of the buffered bytes followed by `p` are compressed,
the remainder stays buffered; as `hash.Hash` documents, it never returns an
error. -/
def Write (d : hash.Hash) (p : Bytes) : hash.Hash :=
  let r := blocks d.alg (d.x ++ p).length d.h (d.x ++ p)
  { d with h := r.1, x := r.2, len := (d.len + p.length) % 2 ^ 64 }

/-- The padding `checkSum` writes: a `0x80` byte, zero bytes up to the length
field, then the bit length, a `uint64` (little-endian for md5, big-endian
otherwise; for sha384 and sha512 the field is 128 bits wide and its upper half
is zero). -/
def padding (d : hash.Hash) : Bytes :=
  let c := d.alg.BlockSize
  let body := c - d.alg.lenBytes
  let r := d.len % c
  let n := if r < body then body - r else c + body - r
  let bitlen := (d.len * 8) % 2 ^ 64
  let field := match d.alg with
    | .md5 => putLE 8 bitlen
    | .sha384 | .sha512 => putBE 16 bitlen
    | _ => putBE 8 bitlen
  (0x80 : UInt8) :: List.replicate (n - 1) 0 ++ field

/-- `checkSum()`: pad a copy of the state and serialise the chaining value. -/
def checkSum (d : hash.Hash) : Bytes :=
  let d1 := d.Write d.padding
  match d.alg with
  | .md5 => (List.range 4).flatMap (fun i => putLE 4 (d1.h.getD i 0))
  | .sha1 => (List.range 5).flatMap (fun i => putBE 4 (d1.h.getD i 0))
  | .sha224 | .sha256 => (List.range 8).flatMap (fun i => putBE 4 (d1.h.getD i 0))
  | .sha384 | .sha512 => (List.range 8).flatMap (fun i => putBE 8 (d1.h.getD i 0))

/-- Modelled from the spec: `Sum(b)` of the primitive (spec §1: a fixed-length
digest snapshot that does not destroy the state): append the current digest to
`b`; the receiver is not changed. -/
def Sum (d : hash.Hash) (b : Bytes) : Bytes :=
  b ++ (d.checkSum).take d.alg.Size

end hash.Hash

/-- `md5.New()`. -/
def md5.New : hash.Hash :=
  ⟨.md5, [0x67452301, 0xefcdab89, 0x98badcfe, 0x10325476], [], 0⟩

/-- `sha1.New()`. -/
def sha1.New : hash.Hash :=
  ⟨.sha1, [0x67452301, 0xefcdab89, 0x98badcfe, 0x10325476, 0xc3d2e1f0], [], 0⟩

/-- `sha256.New224()`. -/
def sha256.New224 : hash.Hash :=
  ⟨.sha224, [0xc1059ed8, 0x367cd507, 0x3070dd17, 0xf70e5939,
             0xffc00b31, 0x68581511, 0x64f98fa7, 0xbefa4fa4], [], 0⟩

/-- `sha256.New()`. -/
def sha256.New : hash.Hash :=
  ⟨.sha256, [0x6a09e667, 0xbb67ae85, 0x3c6ef372, 0xa54ff53a,
             0x510e527f, 0x9b05688c, 0x1f83d9ab, 0x5be0cd19], [], 0⟩

/-- `sha512.New384()`. -/
def sha512.New384 : hash.Hash :=
  ⟨.sha384, [0xcbbb9d5dc1059ed8, 0x629a292a367cd507, 0x9159015a3070dd17, 0x152fecd8f70e5939,
             0x67332667ffc00b31, 0x8eb44a8768581511, 0xdb0c2e0d64f98fa7, 0x47b5481dbefa4fa4], [], 0⟩

/-- `sha512.New()`. -/
def sha512.New : hash.Hash :=
  ⟨.sha512, [0x6a09e667f3bcc908, 0xbb67ae8584caa73b, 0x3c6ef372fe94f82b, 0xa54ff53a5f1d36f1,
             0x510e527fade682d1, 0x9b05688c2b3e6c1f, 0x1f83d9abfb41bd6b, 0x5be0cd19137e2179], [], 0⟩

/-! ## `fmt.Sprintf` without operands

`py.ExceptionNewf` formats its message with Go's `fmt.Sprintf`.  `hashlib.go`
calls it with a format and no operands; this is the formatting loop of package
`fmt` for that case. -/

namespace fmt

/-- `parsenum`: read a decimal number; the flag says whether one was read.  A
number that grows past `1e6` makes the scan give up at the end of the input. -/
def parsenum : List Char → Nat → Bool → Bool × List Char
  | [], _, isnum => (isnum, [])
  | c :: cs, num, isnum =>
    if c.isDigit then
      if 1000000 < num then (false, [])
      else parsenum cs (num * 10 + (c.toNat - 48)) true
    else (isnum, c :: cs)

/-- `argNumber` when there are no operands: an `[n]` index can never be valid.
Returns whether a bracket was met (the index is then bad), whether it parsed,
and the rest of the format. -/
def argNumber (s : List Char) : Bool × Bool × List Char :=
  match s with
  | '[' :: cs =>
    if s.length < 3 ∨ ¬ cs.contains ']' then (true, false, cs)
    else
      let inner := cs.takeWhile (fun c => c != ']')
      let rest := (cs.dropWhile (fun c => c != ']')).drop 1
      (true, inner != [] && parsenum inner 0 false == (true, []), rest)
  | _ => (false, false, s)

/-- One directive, after its `%`: flags, index, width, precision, index and
verb.  With no operand to print, the output is `%` for the verb `%`, and
otherwise one of the diagnostics of package `fmt`.  Returns the text and the
rest of the format. -/
def directive (s : List Char) : List Char × List Char :=
  let s := s.dropWhile (fun c => c == '#' || c == '0' || c == '+' || c == '-' || c == ' ')
  let (bad1, after1, s) := argNumber s
  let (out1, bad2, after2, s) :=
    match s with
    | '*' :: cs => ("%!(BADWIDTH)".toList, false, false, cs)
    | _ =>
      let (isnum, cs) := parsenum s 0 false
      ([], after1 && isnum, after1, cs)
  let (out2, bad3, after3, s) :=
    match s with
    | '.' :: cs =>
      let (bad, after, cs) := argNumber cs
      match cs with
      | '*' :: cs => ("%!(BADPREC)".toList, after2 || bad, false, cs)
      | _ => ([], after2 || bad, after, (parsenum cs 0 false).2)
    | _ => ([], false, after2, s)
  let (bad4, s) := if after3 then (false, s) else let r := argNumber s; (r.1, r.2.2)
  match s with
  | [] => (out1 ++ out2 ++ "%!(NOVERB)".toList, [])
  | verb :: cs =>
    if verb = '%' then (out1 ++ out2 ++ ['%'], cs)
    else if bad1 || bad2 || bad3 || bad4 then
      (out1 ++ out2 ++ "%!".toList ++ [verb] ++ "(BADINDEX)".toList, cs)
    else (out1 ++ out2 ++ "%!".toList ++ [verb] ++ "(MISSING)".toList, cs)

/-- The formatting loop of `doPrintf`: text is copied, each `%` starts a
directive. -/
def doPrintf : Nat → List Char → List Char
  | 0, _ => []
  | _ + 1, [] => []
  | fuel + 1, c :: cs =>
    if c = '%' then
      let r := directive cs
      r.1 ++ doPrintf fuel r.2
    else c :: doPrintf fuel cs

/-- `fmt.Sprintf(format)` called with a format and no operands. -/
def Sprintf (format : String) : String :=
  String.mk (doPrintf format.length format.toList)

end fmt

/-! ## Package `py`: objects, exceptions, argument parsing -/

namespace py

/-- The type objects `hashlib.go` and the argument parser look at. -/
inductive TypeObject
  | NoneTypeType | BoolType | IntType | StringType | BytesType
  deriving DecidableEq, Repr

/-- `Type.Name`. -/
def TypeObject.Name : TypeObject → String
  | .NoneTypeType => "NoneType"
  | .BoolType => "bool"
  | .IntType => "int"
  | .StringType => "str"
  | .BytesType => "bytes"

/-- Modelled from the spec: a `py.Object` (package `py`, not part of
`hashlib.go`), the values a caller can pass as an argument: a byte sequence, a
text value, or a value of another type (spec §4.2, §6). -/
inductive Object
  | None
  | Bool (b : Bool)
  | Int (n : Int)
  | String (s : String)
  | Bytes (b : Hashlib.Bytes)
  deriving DecidableEq, Repr

/-- `Object.Type()`. -/
def Object.Type : Object → TypeObject
  | .None => .NoneTypeType
  | .Bool _ => .BoolType
  | .Int _ => .IntType
  | .String _ => .StringType
  | .Bytes _ => .BytesType

/-- `py.Tuple`: the positional arguments of a call. -/
abbrev Tuple := List Object

/-- `py.StringDict`: the keyword arguments of a call. -/
abbrev StringDict := List (String × Object)

/-- The exception types that occur on the paths of `hashlib.go`. -/
inductive ExceptionType
  | TypeError | ValueError
  deriving DecidableEq, Repr

/-- A `py.Exception`: its type and its message. -/
structure Exception where
  Base : ExceptionType
  Args : String
  deriving DecidableEq, Repr

/-- `py.ExceptionNewf(metatype, format, a...)` of package `py` (not part of
`hashlib.go`) builds the message with `fmt.Sprintf(format, a...)`; here with no
operands after the format, as `hashlib_new` calls it. -/
def ExceptionNewf (metatype : ExceptionType) (format : String) : Exception :=
  ⟨metatype, fmt.Sprintf format⟩

/-- Modelled from the spec: the argument-count check of the calling-convention
layer (package `py`, not part of `hashlib.go`).  Spec §7: shape errors (wrong
argument count) are detected by this layer before the core is reached. -/
def checkNumberOfArgs (name : String) (nargs min max : Nat) : Except Exception Unit :=
  if max < nargs then
    .error ⟨.TypeError, name ++ "() takes at most " ++ toString max ++
      " arguments (" ++ toString nargs ++ " given)"⟩
  else if nargs < min then
    .error ⟨.TypeError, name ++ "() takes at least " ++ toString min ++
      " arguments (" ++ toString nargs ++ " given)"⟩
  else .ok ()

/-- The units of a format such as `"s|y:new"`: the unit characters, how many
of them stand before `|` (the required ones) and the function name after `:`. -/
def parseFormat (format : String) : List Char × Nat × String :=
  let body := format.toList.takeWhile (fun c => c != ':')
  let name := String.mk ((format.toList.dropWhile (fun c => c != ':')).drop 1)
  (body.filter (fun c => c != '|'), (body.takeWhile (fun c => c != '|')).length, name)

/-- Type check of one argument against its format unit: `s` takes a `str`,
`y` a bytes object, `O` any object. -/
def checkUnit (name : String) (pos : Nat) (unit : Char) (arg : Object) : Except Exception Unit :=
  if unit = 's' ∧ arg.Type ≠ .StringType then
    .error ⟨.TypeError, name ++ "() argument " ++ toString pos ++ " must be str, not " ++
      arg.Type.Name⟩
  else if unit = 'y' ∧ arg.Type ≠ .BytesType then
    .error ⟨.TypeError, name ++ "() argument " ++ toString pos ++ " must be bytes-like, not " ++
      arg.Type.Name⟩
  else .ok ()

/-- Fill the result slots for the units `units`, the `i`-th of them named by
`kwlist`, from the positional and keyword arguments. -/
def fillResults (name : String) (min : Nat) (args : Tuple) (kwargs : StringDict) :
    Nat → List Char → List String → Except Exception (List (Option Object))
  | _, [], _ => .ok []
  | i, unit :: units, kwlist =>
    let kw := kwlist.headD ""
    match args.get? i, kwargs.lookup kw with
    | some _, some _ =>
      .error ⟨.TypeError, name ++ "() got multiple values for argument " ++ kw⟩
    | some arg, none | none, some arg => do
      checkUnit name (i + 1) unit arg
      let rest ← fillResults name min args kwargs (i + 1) units kwlist.tail
      pure (some arg :: rest)
    | none, none =>
      if i < min then
        .error ⟨.TypeError, name ++ "() missing required argument " ++ kw ++
          " (pos " ++ toString (i + 1) ++ ")"⟩
      else do
        let rest ← fillResults name min args kwargs (i + 1) units kwlist.tail
        pure (none :: rest)

/-- Modelled from the spec: `py.ParseTupleAndKeywords` (package `py`, not part
of `hashlib.go`), the argument-marshaling layer of spec §1: it hands the core
already-typed values, one slot per format unit (`none` for an optional argument
that was not supplied), or raises a shape error. -/
def ParseTupleAndKeywords (args : Tuple) (kwargs : StringDict) (format : String)
    (kwlist : List String) : Except Exception (List (Option Object)) :=
  let (units, min, name) := parseFormat format
  do
    checkNumberOfArgs name (args.length + kwargs.length) min units.length
    match kwargs.find? (fun kv => !kwlist.contains kv.1) with
    | some kv => .error ⟨.TypeError, name ++ "() got an unexpected keyword argument " ++ kv.1⟩
    | none => fillResults name min args kwargs 0 units kwlist

/-- Modelled from the spec: `py.UnpackTuple` (package `py`, not part of
`hashlib.go`): between `min` and `max` positional arguments, no keywords; one
slot per possible argument. -/
def UnpackTuple (args : Tuple) (kwargs : StringDict) (name : String) (min max : Nat) :
    Except Exception (List (Option Object)) :=
  if kwargs ≠ [] then
    .error ⟨.TypeError, name ++ "() does not take keyword arguments"⟩
  else do
    checkNumberOfArgs name args.length min max
    pure ((List.range max).map (fun i => args.get? i))

/-- Modelled from the spec: `py.StrAsString` (package `py`, not part of
`hashlib.go`): the Go string of a `str` object. -/
def StrAsString (o : Option Object) : Except Exception String :=
  match o with
  | some (.String s) => .ok s
  | _ => .error ⟨.TypeError, "expected str"⟩

/-- Modelled from the spec: one admissible `py.BytesFromObject` (package `py`,
not part of `hashlib.go`).  Spec §4.2 and §6: a byte sequence is taken as it
is, a text value is read as its raw bytes, and anything else is a conversion
failure.  The functions of `hashlib.go` take the conversion as a parameter; this
instance is used to evaluate them. -/
def BytesFromObject : Object → Except Exception Bytes
  | .Bytes b => .ok b
  | .String s => .ok s.toUTF8.data.toList
  | o => .error ⟨.TypeError, "cannot convert " ++ o.Type.Name ++ " object to bytes"⟩

/-- `hex.EncodeToString`: two lowercase hexadecimal digits per byte. -/
def hexEncode (b : Bytes) : String :=
  String.mk (b.flatMap (fun x =>
    ["0123456789abcdef".toList.getD (x.toNat / 16) '0',
     "0123456789abcdef".toList.getD (x.toNat % 16) '0']))

/-- Modelled from the spec: the Hash Object built by `py.NewHash` (`py/hash.go`,
not part of `hashlib.go`).  Spec §3: a `name` fixed at creation and an
exclusively owned incremental hash primitive. -/
structure Hash where
  name : String
  hasher : hash.Hash
  deriving DecidableEq, Repr

/-- `py.NewHash(name, hasher)`. -/
def NewHash (name : String) (hasher : hash.Hash) : Hash := ⟨name, hasher⟩

namespace Hash

/-- Modelled from the spec: `update(data)` (spec §4.4) feeds the bytes of `data`
to the wrapped primitive. -/
def update (self : Hash) (data : Bytes) : Hash :=
  { self with hasher := self.hasher.Write data }

/-- Modelled from the spec: `digest()` (spec §4.4) is the digest of all bytes
fed so far; the state is not changed. -/
def digest (self : Hash) : Bytes := self.hasher.Sum []

/-- Modelled from the spec: `hexdigest()` (spec §4.4) is the lowercase
hexadecimal encoding of `digest()`. -/
def hexdigest (self : Hash) : String := hexEncode self.digest

end Hash

/-- The result of a module function: a Hash Object or a raised exception. -/
abbrev Result := Except Exception Hash

/-- The Go function shapes `py.NewMethod` accepts that `hashlib.go` uses. -/
inductive Function
  | withArgs (f : Object → Tuple → Result)
  | withKeywords (f : Object → Tuple → StringDict → Result)
  | withObject (f : Object → Object → Result)

/-- A `py.Method`: a name, the Go function and the documentation string. -/
structure Method where
  Name : String
  method : Function
  Doc : String

/-- Modelled from the spec: `Method.Call` (package `py`, not part of
`hashlib.go`), the calling-convention layer of spec §1 for a positional call.
A function that takes a tuple receives all the arguments; a function declared
with one object parameter is called with exactly one argument, any other
count is a shape error. -/
def Method.Call (m : Method) (self : Object) (args : Tuple) : Result :=
  match m.method with
  | .withArgs f => f self args
  | .withKeywords f => f self args []
  | .withObject f =>
    match args with
    | [arg] => f self arg
    | _ => .error ⟨.TypeError, m.Name ++ "() takes exactly 1 argument (" ++
        toString args.length ++ " given)"⟩

end py

/-! ## `hashlib/hashlib.go` -/

section hashlib

variable (BytesFromObject : py.Object → Except py.Exception Bytes)

/-- `hashlib_new`: `new(name, data=b'')`. -/
def hashlib_new (self : py.Object) (args : py.Tuple) (kwargs : py.StringDict) : py.Result := do
  let kwlist := ["name", "string"]
  let res ← py.ParseTupleAndKeywords args kwargs "s|y:new" kwlist
  let on_ := res.getD 0 none
  let os := res.getD 1 none
  let name ← py.StrAsString on_
  let data ← match os with
    | some o => BytesFromObject o
    | none => pure []
  let hasher ← match name with
    | "md5" => pure md5.New
    | "sha1" => pure sha1.New
    | "sha224" => pure sha256.New224
    | "sha256" => pure sha256.New
    | "sha384" => pure sha512.New384
    | "sha512" => pure sha512.New
    | _ => throw (py.ExceptionNewf .ValueError ("unsupported hash type " ++ name))
  pure (py.NewHash name (hasher.Write data))

/-- `hashlib_md5`: routes through `hashlib_new` with `"md5"` put in front of
the arguments and no keywords. -/
def hashlib_md5 (self : py.Object) (args : py.Tuple) : py.Result :=
  hashlib_new BytesFromObject self (py.Object.String "md5" :: args) []

/-- `hashlib_sha1`. -/
def hashlib_sha1 (self : py.Object) (args : py.Tuple) : py.Result := do
  let res ← py.UnpackTuple args [] "sha1" 0 1
  let d := res.getD 0 none
  let data ← match d with
    | some d =>
      match d.Type, d with
      | .BytesType, _ => BytesFromObject d
      | .StringType, .String s => pure s.toUTF8.data.toList
      | _, _ => pure []
    | none => pure []
  pure (py.NewHash "sha1" (sha1.New.Write data))

/-- `hashlib_sha224`. -/
def hashlib_sha224 (self : py.Object) (args : py.Tuple) : py.Result := do
  let res ← py.UnpackTuple args [] "sha224" 0 1
  let d := res.getD 0 none
  let data ← match d with
    | some d =>
      match d.Type, d with
      | .BytesType, _ => BytesFromObject d
      | .StringType, .String s => pure s.toUTF8.data.toList
      | _, _ => pure []
    | none => pure []
  pure (py.NewHash "sha224" (sha256.New224.Write data))

/-- `hashlib_sha256`. -/
def hashlib_sha256 (self : py.Object) (arg : py.Object) : py.Result := do
  let data ← BytesFromObject arg
  pure (py.NewHash "sha256" (sha256.New.Write data))

/-- `hashlib_sha384`. -/
def hashlib_sha384 (self : py.Object) (arg : py.Object) : py.Result := do
  let data ← BytesFromObject arg
  pure (py.NewHash "sha384" (sha512.New384.Write data))

/-- `hashlib_sha512`. -/
def hashlib_sha512 (self : py.Object) (arg : py.Object) : py.Result := do
  let data ← BytesFromObject arg
  pure (py.NewHash "sha512" (sha512.New.Write data))

/-- The method table registered by `init`. -/
def methods : List py.Method :=
  [⟨"new", .withKeywords (hashlib_new BytesFromObject),
      "new(name, data=b'') - returns a new hash object implementing the given hash function; initializing the hash using the given binary data."⟩,
   ⟨"md5", .withArgs (hashlib_md5 BytesFromObject),
      "Returns a md5 hash object; optionally initialized with a string"⟩,
   ⟨"sha1", .withArgs (hashlib_sha1 BytesFromObject),
      "Returns a sha1 hash object; optionally initialized with a string"⟩,
   ⟨"sha224", .withArgs (hashlib_sha224 BytesFromObject),
      "Returns a sha224 hash object; optionally initialized with a string"⟩,
   ⟨"sha256", .withObject (hashlib_sha256 BytesFromObject),
      "Returns a sha256 hash object; optionally initialized with a string"⟩,
   ⟨"sha384", .withObject (hashlib_sha384 BytesFromObject),
      "Returns a sha384 hash object; optionally initialized with a string"⟩,
   ⟨"sha512", .withObject (hashlib_sha512 BytesFromObject),
      "Returns a sha512 hash object; optionally initialized with a string"⟩]

/-- A positional call `hashlib.<name>(args...)`: the method registered under
`name`, called through `Method.Call`. -/
def callModule (name : String) (self : py.Object) (args : py.Tuple) : Option py.Result :=
  ((methods BytesFromObject).find? (fun m => m.Name == name)).map (fun m => m.Call self args)

end hashlib

/-! ## Vocabulary of the statements -/

/-- The six names the switch of `hashlib_new` has a case for. -/
def supported : List String := ["md5", "sha1", "sha224", "sha256", "sha384", "sha512"]

/-- The zero-state primitive the case of each supported name constructs. -/
def zeroState (name : String) : Option hash.Hash :=
  if name = "md5" then some md5.New
  else if name = "sha1" then some sha1.New
  else if name = "sha224" then some sha256.New224
  else if name = "sha256" then some sha256.New
  else if name = "sha384" then some sha512.New384
  else if name = "sha512" then some sha512.New
  else none

/-- The `ValueError` the default case of the switch builds for `name`. -/
def unsupportedError (name : String) : py.Exception :=
  py.ExceptionNewf .ValueError ("unsupported hash type " ++ name)

/-! ## The streaming primitive: absorbing is independent of how the input is cut -/

theorem Algorithm.BlockSize_pos (alg : Algorithm) : 0 < alg.BlockSize := by
  cases alg <;> decide

theorem Algorithm.Size_pos (alg : Algorithm) : 0 < alg.Size := by
  cases alg <;> decide

/-- Once the fuel covers the input, more fuel changes nothing. -/
theorem blocks_fuel (alg : Algorithm) :
    ∀ (n m : Nat) (h : List Nat) (p : Bytes), p.length ≤ n → p.length ≤ m →
      blocks alg n h p = blocks alg m h p := by
  intro n
  induction n with
  | zero =>
    intro m h p hn _
    have hp : p = [] := List.length_eq_zero.mp (Nat.le_zero.mp hn)
    subst hp
    cases m with
    | zero => rfl
    | succ m =>
      have := alg.BlockSize_pos
      simp only [blocks, List.length_nil]
      rw [if_neg (by omega)]
  | succ n ih =>
    intro m h p hn hm
    by_cases hb : alg.BlockSize ≤ p.length
    · have hpos := alg.BlockSize_pos
      cases m with
      | zero => omega
      | succ m =>
        simp only [blocks, if_pos hb]
        apply ih
        · simp only [List.length_drop]; omega
        · simp only [List.length_drop]; omega
    · cases m with
      | zero => simp only [blocks, if_neg hb]
      | succ m => simp only [blocks, if_neg hb]

/-- Absorbing `p ++ q` is absorbing `p` and then the leftover of `p` followed
by `q`. -/
theorem blocks_append (alg : Algorithm) :
    ∀ (n : Nat) (h : List Nat) (p q : Bytes), p.length ≤ n →
      blocks alg (p ++ q).length h (p ++ q) =
        blocks alg ((blocks alg n h p).2 ++ q).length (blocks alg n h p).1
          ((blocks alg n h p).2 ++ q) := by
  intro n
  induction n with
  | zero =>
    intro h p q hn
    have hp : p = [] := List.length_eq_zero.mp (Nat.le_zero.mp hn)
    subst hp
    simp [blocks]
  | succ n ih =>
    intro h p q hn
    by_cases hb : alg.BlockSize ≤ p.length
    · have hpos := alg.BlockSize_pos
      have hlen : (p ++ q).length = (p ++ q).length - 1 + 1 := by
        simp only [List.length_append]; omega
      have hb2 : alg.BlockSize ≤ (p ++ q).length := by
        simp only [List.length_append]; omega
      rw [hlen]
      simp only [blocks, if_pos hb, if_pos hb2]
      rw [List.take_append_of_le_length hb, List.drop_append_of_le_length hb]
      rw [← ih (alg.block h ((p.take alg.BlockSize).map UInt8.toNat)) (p.drop alg.BlockSize) q
        (by simp only [List.length_drop]; omega)]
      apply blocks_fuel
      · simp only [List.length_append, List.length_drop]; omega
      · exact Nat.le_refl _
    · simp only [blocks, if_neg hb]

/-- Two `Write` calls in a row equal one `Write` of the concatenation. -/
theorem Write_Write (d : hash.Hash) (a b : Bytes) :
    (d.Write a).Write b = d.Write (a ++ b) := by
  have h := blocks_append d.alg (d.x ++ a).length d.h (d.x ++ a) b (Nat.le_refl _)
  simp only [hash.Hash.Write, List.append_assoc] at h ⊢
  rw [h]
  congr 1
  simp only [List.length_append]
  omega

/-- `Write` keeps the algorithm. -/
theorem Write_alg (d : hash.Hash) (p : Bytes) : (d.Write p).alg = d.alg := rfl

/-- Writing nothing leaves a state with an incomplete buffered block as it is. -/
theorem Write_nil (d : hash.Hash) (hx : d.x.length < d.alg.BlockSize) (hl : d.len < 2 ^ 64) :
    d.Write [] = d := by
  cases d with
  | mk alg h x len =>
    simp only [hash.Hash.Write, List.append_nil, List.length_nil, Nat.add_zero] at hx hl ⊢
    have hnb : ¬ alg.BlockSize ≤ x.length := by omega
    have hb : blocks alg x.length h x = (h, x) := by
      cases hx2 : x.length with
      | zero => rfl
      | succ k =>
        simp only [blocks]
        rw [if_neg (by omega)]
    rw [hb, Nat.mod_eq_of_lt hl]

theorem putBE_length (n w : Nat) : (putBE n w).length = n := by
  simp [putBE]

theorem putLE_length (n w : Nat) : (putLE n w).length = n := by
  simp [putLE]

theorem flatMap_length_const {α β : Type} (f : α → List β) (k : Nat)
    (hf : ∀ a, (f a).length = k) : ∀ l : List α, (l.flatMap f).length = l.length * k := by
  intro l
  induction l with
  | nil => simp
  | cons a l ih =>
    simp only [List.flatMap_cons, List.length_append, List.length_cons, hf, ih]
    rw [Nat.succ_mul]
    omega

/-- The serialised chaining value is never shorter than the digest. -/
theorem checkSum_length (d : hash.Hash) : d.alg.Size ≤ d.checkSum.length := by
  cases d with
  | mk alg h x len =>
    cases alg
    · simp only [hash.Hash.checkSum]
      rw [flatMap_length_const _ 4 (fun i => putLE_length 4 _)]
      decide
    · simp only [hash.Hash.checkSum]
      rw [flatMap_length_const _ 4 (fun i => putBE_length 4 _)]
      decide
    · simp only [hash.Hash.checkSum]
      rw [flatMap_length_const _ 4 (fun i => putBE_length 4 _)]
      decide
    · simp only [hash.Hash.checkSum]
      rw [flatMap_length_const _ 4 (fun i => putBE_length 4 _)]
      decide
    · simp only [hash.Hash.checkSum]
      rw [flatMap_length_const _ 8 (fun i => putBE_length 8 _)]
      decide
    · simp only [hash.Hash.checkSum]
      rw [flatMap_length_const _ 8 (fun i => putBE_length 8 _)]
      decide

/-- `Sum(nil)` has exactly `Size()` bytes, whatever has been written. -/
theorem Sum_length (d : hash.Hash) : (d.Sum []).length = d.alg.Size := by
  have h := checkSum_length d
  simp only [hash.Hash.Sum, List.nil_append, List.length_take]
  omega

/-- The hexadecimal encoding has two characters per byte. -/
theorem hexEncode_length (b : Bytes) : (py.hexEncode b).length = 2 * b.length := by
  simp only [py.hexEncode, String.length]
  induction b with
  | nil => rfl
  | cons x xs ih =>
    simp only [List.flatMap_cons, List.length_append, List.length_cons, List.length_nil, ih]
    omega

/-! ## Argument parsing for `"s|y:new"` -/

theorem parseFormat_new : py.parseFormat "s|y:new" = (['s', 'y'], 1, "new") := by decide

theorem parse_new_one (name : String) :
    py.ParseTupleAndKeywords [.String name] [] "s|y:new" ["name", "string"]
      = .ok [some (.String name), none] := by
  simp only [py.ParseTupleAndKeywords, parseFormat_new]
  rfl

theorem parse_new_two (name : String) (b : Bytes) :
    py.ParseTupleAndKeywords [.String name, .Bytes b] [] "s|y:new" ["name", "string"]
      = .ok [some (.String name), some (.Bytes b)] := by
  simp only [py.ParseTupleAndKeywords, parseFormat_new]
  rfl

theorem parse_new_bad (name : String) (d : py.Object) (hd : d.Type ≠ .BytesType) :
    py.ParseTupleAndKeywords [.String name, d] [] "s|y:new" ["name", "string"]
      = .error ⟨.TypeError, "new() argument 2 must be bytes-like, not " ++ d.Type.Name⟩ := by
  simp only [py.ParseTupleAndKeywords, parseFormat_new]
  cases d <;> first | rfl | exact absurd rfl hd

/-! ## The switch of `hashlib_new` -/

theorem zeroState_none_iff (name : String) : zeroState name = none ↔ name ∉ supported := by
  simp only [zeroState, supported, List.mem_cons, List.mem_singleton, List.mem_nil_iff, or_false,
    not_or]
  constructor
  · intro h
    refine ⟨?_, ?_, ?_, ?_, ?_, ?_⟩ <;> (rintro rfl; revert h; decide)
  · rintro ⟨h1, h2, h3, h4, h5, h6⟩
    simp [h1, h2, h3, h4, h5, h6]

/-- What `hashlib_new` does once the arguments are parsed and converted: the
switch on `name`, then one `Write` of `data`. -/
theorem hashlib_new_dispatch (conv : py.Object → Except py.Exception Bytes) (self : py.Object)
    (name : String) (os : Option py.Object) (data : Bytes)
    (args : py.Tuple) (kwargs : py.StringDict)
    (hparse : py.ParseTupleAndKeywords args kwargs "s|y:new" ["name", "string"]
      = .ok [some (.String name), os])
    (hdata : (match os with | some o => conv o | none => .ok []) = .ok data) :
    hashlib_new conv self args kwargs =
      match zeroState name with
      | some z => .ok (py.NewHash name (z.Write data))
      | none => .error (unsupportedError name) := by
  simp only [hashlib_new, hparse]
  simp only [bind, Except.bind, List.getD, List.get?, Option.getD, py.StrAsString, pure,
    Except.pure]
  cases os with
  | none =>
    simp only at hdata
    injection hdata with hdata
    subst hdata
    simp only [zeroState, unsupportedError]
    split <;> simp_all
  | some o =>
    simp only at hdata
    simp only [hdata, zeroState, unsupportedError]
    split <;> simp_all

/-! ## The named constructors -/

theorem UnpackTuple_nil (name : String) :
    py.UnpackTuple [] [] name 0 1 = .ok [none] := rfl

theorem UnpackTuple_one (name : String) (d : py.Object) :
    py.UnpackTuple [d] [] name 0 1 = .ok [some d] := rfl

theorem UnpackTuple_many (name : String) (d e : py.Object) (rest : py.Tuple) :
    ∃ err, py.UnpackTuple (d :: e :: rest) [] name 0 1 = .error err ∧ err.Base = .TypeError := by
  simp only [py.UnpackTuple, py.checkNumberOfArgs, List.length_cons]
  rw [if_neg (by simp), if_pos (by omega)]
  exact ⟨_, rfl, rfl⟩

/-- Every object `hashlib_sha1` returns is labelled `sha1` and holds the sha1
primitive after one `Write`. -/
theorem hashlib_sha1_shape (conv : py.Object → Except py.Exception Bytes) (self : py.Object)
    (args : py.Tuple) (h : py.Hash) (hok : hashlib_sha1 conv self args = .ok h) :
    ∃ data, h = py.NewHash "sha1" (sha1.New.Write data) := by
  match args with
  | [] =>
    simp only [hashlib_sha1, UnpackTuple_nil] at hok
    exact ⟨[], (Except.ok.inj hok).symm⟩
  | [d] =>
    simp only [hashlib_sha1, UnpackTuple_one] at hok
    cases d with
    | Bytes b =>
      simp only [bind, Except.bind, List.getD, List.get?, Option.getD, py.Object.Type, pure,
        Except.pure] at hok
      cases hc : conv (.Bytes b) with
      | error e => rw [hc] at hok; exact absurd hok (by simp)
      | ok data => rw [hc] at hok; exact ⟨data, (Except.ok.inj hok).symm⟩
    | String s => exact ⟨_, (Except.ok.inj hok).symm⟩
    | None => exact ⟨[], (Except.ok.inj hok).symm⟩
    | Bool b => exact ⟨[], (Except.ok.inj hok).symm⟩
    | Int n => exact ⟨[], (Except.ok.inj hok).symm⟩
  | d :: e :: rest =>
    obtain ⟨err, herr, _⟩ := UnpackTuple_many "sha1" d e rest
    simp only [hashlib_sha1, herr] at hok
    exact absurd hok (by simp [bind, Except.bind])

/-- Every object `hashlib_sha224` returns is labelled `sha224` and holds the
SHA-224 primitive after one `Write`. -/
theorem hashlib_sha224_shape (conv : py.Object → Except py.Exception Bytes) (self : py.Object)
    (args : py.Tuple) (h : py.Hash) (hok : hashlib_sha224 conv self args = .ok h) :
    ∃ data, h = py.NewHash "sha224" (sha256.New224.Write data) := by
  match args with
  | [] =>
    simp only [hashlib_sha224, UnpackTuple_nil] at hok
    exact ⟨[], (Except.ok.inj hok).symm⟩
  | [d] =>
    simp only [hashlib_sha224, UnpackTuple_one] at hok
    cases d with
    | Bytes b =>
      simp only [bind, Except.bind, List.getD, List.get?, Option.getD, py.Object.Type, pure,
        Except.pure] at hok
      cases hc : conv (.Bytes b) with
      | error e => rw [hc] at hok; exact absurd hok (by simp)
      | ok data => rw [hc] at hok; exact ⟨data, (Except.ok.inj hok).symm⟩
    | String s => exact ⟨_, (Except.ok.inj hok).symm⟩
    | None => exact ⟨[], (Except.ok.inj hok).symm⟩
    | Bool b => exact ⟨[], (Except.ok.inj hok).symm⟩
    | Int n => exact ⟨[], (Except.ok.inj hok).symm⟩
  | d :: e :: rest =>
    obtain ⟨err, herr, _⟩ := UnpackTuple_many "sha224" d e rest
    simp only [hashlib_sha224, herr] at hok
    exact absurd hok (by simp [bind, Except.bind])

/-- `hashlib_sha256` is the conversion followed by one `Write`. -/
theorem hashlib_sha256_eq (conv : py.Object → Except py.Exception Bytes) (self arg : py.Object) :
    hashlib_sha256 conv self arg =
      match conv arg with
      | .ok data => .ok (py.NewHash "sha256" (sha256.New.Write data))
      | .error err => .error err := by
  simp only [hashlib_sha256, bind, Except.bind, pure, Except.pure]
  cases conv arg <;> rfl

/-- `hashlib_sha384` is the conversion followed by one `Write`. -/
theorem hashlib_sha384_eq (conv : py.Object → Except py.Exception Bytes) (self arg : py.Object) :
    hashlib_sha384 conv self arg =
      match conv arg with
      | .ok data => .ok (py.NewHash "sha384" (sha512.New384.Write data))
      | .error err => .error err := by
  simp only [hashlib_sha384, bind, Except.bind, pure, Except.pure]
  cases conv arg <;> rfl

/-- `hashlib_sha512` is the conversion followed by one `Write`. -/
theorem hashlib_sha512_eq (conv : py.Object → Except py.Exception Bytes) (self arg : py.Object) :
    hashlib_sha512 conv self arg =
      match conv arg with
      | .ok data => .ok (py.NewHash "sha512" (sha512.New.Write data))
      | .error err => .error err := by
  simp only [hashlib_sha512, bind, Except.bind, pure, Except.pure]
  cases conv arg <;> rfl

/-- A successful parse of positional arguments puts the first one in the first slot. -/
theorem parse_new_head (a : py.Object) (args : py.Tuple) (res : List (Option py.Object))
    (hok : py.ParseTupleAndKeywords (a :: args) [] "s|y:new" ["name", "string"] = .ok res) :
    res.getD 0 none = some a := by
  simp only [py.ParseTupleAndKeywords, parseFormat_new] at hok
  simp only [bind, Except.bind, List.find?, py.fillResults, List.get?, List.lookup,
    List.headD, pure, Except.pure] at hok
  cases h1 : py.checkNumberOfArgs "new" ((a :: args).length + ([] : py.StringDict).length) 1
      ['s', 'y'].length with
  | error e => rw [h1] at hok; exact absurd hok (by simp)
  | ok u =>
    rw [h1] at hok
    simp only at hok
    cases h2 : py.checkUnit "new" (0 + 1) 's' a with
    | error e => rw [h2] at hok; exact absurd hok (by simp)
    | ok u2 =>
      rw [h2] at hok
      simp only at hok
      split at hok
      · exact absurd hok (by simp)
      · injection hok with hok
        subst hok
        rfl

/-- Every object `hashlib_md5` returns is labelled `md5` and holds the md5
primitive after one `Write`. -/
theorem hashlib_md5_shape (conv : py.Object → Except py.Exception Bytes) (self : py.Object)
    (args : py.Tuple) (h : py.Hash) (hok : hashlib_md5 conv self args = .ok h) :
    ∃ data, h = py.NewHash "md5" (md5.New.Write data) := by
  simp only [hashlib_md5, hashlib_new] at hok
  cases hp : py.ParseTupleAndKeywords (py.Object.String "md5" :: args) [] "s|y:new"
      ["name", "string"] with
  | error e => rw [hp] at hok; exact absurd hok (by simp [bind, Except.bind])
  | ok res =>
    have hhead := parse_new_head _ _ _ hp
    rw [hp] at hok
    simp only [bind, Except.bind, hhead, py.StrAsString, pure, Except.pure] at hok
    cases hos : res.getD 1 none with
    | none =>
      rw [hos] at hok
      exact ⟨[], (Except.ok.inj hok).symm⟩
    | some o =>
      rw [hos] at hok
      simp only at hok
      cases hc : conv o with
      | error e => rw [hc] at hok; exact absurd hok (by simp)
      | ok data => rw [hc] at hok; exact ⟨data, (Except.ok.inj hok).symm⟩

/-! ## Formatting of the error message -/

/-- The formatting loop copies a format that holds no `%`. -/
theorem doPrintf_plain : ∀ (l : List Char) (fuel : Nat), l.length ≤ fuel → '%' ∉ l →
    fmt.doPrintf fuel l = l := by
  intro l
  induction l with
  | nil => intro fuel _ _; cases fuel <;> rfl
  | cons c cs ih =>
    intro fuel hlen hno
    cases fuel with
    | zero => simp at hlen
    | succ fuel =>
      have hc : c ≠ '%' := fun h => hno (by simp [h])
      have hcs : '%' ∉ cs := fun h => hno (List.mem_cons_of_mem _ h)
      simp only [fmt.doPrintf, if_neg hc]
      rw [ih fuel (by simpa using hlen) hcs]

/-- `fmt.Sprintf` returns a format that holds no `%` unchanged. -/
theorem Sprintf_plain (s : String) (h : '%' ∉ s.toList) : fmt.Sprintf s = s := by
  simp only [fmt.Sprintf]
  rw [doPrintf_plain s.toList s.length (Nat.le_refl _) h]
  rfl

/-- For a name without `%` the default case of the switch builds the message
`"unsupported hash type "` followed by the name. -/
theorem unsupportedError_plain (name : String) (h : '%' ∉ name.toList) :
    unsupportedError name = ⟨.ValueError, "unsupported hash type " ++ name⟩ := by
  simp only [unsupportedError, py.ExceptionNewf]
  rw [Sprintf_plain]
  intro hmem
  rw [String.toList, String.data_append, List.mem_append] at hmem
  rcases hmem with hmem | hmem
  · revert hmem; decide
  · exact h hmem

/-! ## `hashlib_new`: which names are rejected, and with what -/

/-- With no data argument, `hashlib_new` fails with the error of the default
case exactly for the names outside the six, and succeeds with the zero-state
primitive of the name otherwise. -/
theorem hashlib_new_name_only (conv : py.Object → Except py.Exception Bytes) (self : py.Object)
    (name : String) :
    hashlib_new conv self [.String name] [] =
      match zeroState name with
      | some z => .ok (py.NewHash name (z.Write []))
      | none => .error (unsupportedError name) :=
  hashlib_new_dispatch conv self name none [] _ _ (parse_new_one name) rfl

/-- With a bytes data argument that converts to itself, `hashlib_new` fails with
the error of the default case exactly for the names outside the six, and
otherwise writes the data once into the zero-state primitive of the name. -/
theorem hashlib_new_name_bytes (conv : py.Object → Except py.Exception Bytes) (self : py.Object)
    (name : String) (b : Bytes) (hconv : conv (.Bytes b) = .ok b) :
    hashlib_new conv self [.String name, .Bytes b] [] =
      match zeroState name with
      | some z => .ok (py.NewHash name (z.Write b))
      | none => .error (unsupportedError name) :=
  hashlib_new_dispatch conv self name (some (.Bytes b)) b _ _ (parse_new_two name b) hconv

/-- A data argument that is not a bytes object is rejected by the argument
parser, whatever the name. -/
theorem hashlib_new_not_bytes (conv : py.Object → Except py.Exception Bytes) (self : py.Object)
    (name : String) (d : py.Object) (hd : d.Type ≠ .BytesType) :
    hashlib_new conv self [.String name, d] [] =
      .error ⟨.TypeError, "new() argument 2 must be bytes-like, not " ++ d.Type.Name⟩ := by
  simp only [hashlib_new, parse_new_bad name d hd]
  rfl

/-- A bytes data argument whose conversion fails makes `hashlib_new` fail with
the conversion error, whatever the name. -/
theorem hashlib_new_conversion_error (conv : py.Object → Except py.Exception Bytes)
    (self : py.Object) (name : String) (b : Bytes) (err : py.Exception)
    (hconv : conv (.Bytes b) = .error err) :
    hashlib_new conv self [.String name, .Bytes b] [] = .error err := by
  simp only [hashlib_new, parse_new_two]
  simp only [bind, Except.bind, List.getD, List.get?, Option.getD, py.StrAsString, hconv]

/-- The zero states take an empty `Write` unchanged. -/
theorem zeroState_Write_nil (name : String) (z : hash.Hash) (hz : zeroState name = some z) :
    z.Write [] = z := by
  simp only [zeroState] at hz
  split at hz
  · cases hz; decide
  split at hz
  · cases hz; decide
  split at hz
  · cases hz; decide
  split at hz
  · cases hz; decide
  split at hz
  · cases hz; decide
  split at hz
  · cases hz; decide
  · exact absurd hz (by simp)

/-- The dispatch property of `hashlib_new` for a data argument that is absent
or a bytes object: it fails with the `ValueError` of the default case if and
only if the name is not one of the six, matching exactly and case-sensitively. -/
theorem hashlib_new_unsupported_iff (conv : py.Object → Except py.Exception Bytes)
    (self : py.Object) (name : String) (b : Bytes) (hconv : conv (.Bytes b) = .ok b) :
    (hashlib_new conv self [.String name] [] = .error (unsupportedError name)
        ↔ name ∉ supported) ∧
    (hashlib_new conv self [.String name, .Bytes b] [] = .error (unsupportedError name)
        ↔ name ∉ supported) ∧
    hashlib_new conv self [.String "MD5"] [] = .error (unsupportedError "MD5") ∧
    hashlib_new conv self [.String "sha-256"] [] = .error (unsupportedError "sha-256") := by
  rw [hashlib_new_name_only, hashlib_new_name_bytes conv self name b hconv,
    ← zeroState_none_iff]
  refine ⟨?_, ?_, rfl, rfl⟩
  · cases zeroState name <;> simp
  · cases zeroState name <;> simp

theorem hashlib_new_unsupported_iff_witness :
    (hashlib_new py.BytesFromObject .None [.String "sha3"] [] = .error (unsupportedError "sha3")
        ↔ "sha3" ∉ supported) ∧
    (hashlib_new py.BytesFromObject .None [.String "sha3", .Bytes [1, 2]] []
        = .error (unsupportedError "sha3") ↔ "sha3" ∉ supported) ∧
    hashlib_new py.BytesFromObject .None [.String "MD5"] [] = .error (unsupportedError "MD5") ∧
    hashlib_new py.BytesFromObject .None [.String "sha-256"] []
      = .error (unsupportedError "sha-256") :=
  hashlib_new_unsupported_iff py.BytesFromObject .None "sha3" [1, 2] rfl

/-- C1 (evaluation at the failing input).  `hashlib_new` passes
`"unsupported hash type " + name` to `py.ExceptionNewf` as the format string.
For the name `%%` the message of the `ValueError` is `unsupported hash type %`:
it is not `"unsupported hash type "` followed by the offending name. -/
theorem hashlib_new_percent_name :
    hashlib_new py.BytesFromObject .None [.String "%%"] []
        = .error ⟨.ValueError, "unsupported hash type %"⟩ ∧
      "%%" ∉ supported ∧
      (⟨.ValueError, "unsupported hash type %"⟩ : py.Exception)
        ≠ ⟨.ValueError, "unsupported hash type " ++ "%%"⟩ := by
  refine ⟨by rfl, by decide, by decide⟩

/-! ## Labels and digest lengths -/

/-- An object that holds a primitive after one `Write` has the digest length
of the primitive, and a hexdigest of twice that length. -/
theorem digest_lengths (name : String) (z : hash.Hash) (data : Bytes) :
    (py.NewHash name (z.Write data)).digest.length = z.alg.Size ∧
    (py.NewHash name (z.Write data)).hexdigest.length = 2 * z.alg.Size := by
  have h : (py.NewHash name (z.Write data)).digest.length = z.alg.Size := by
    simp only [py.Hash.digest, py.NewHash, Sum_length, Write_alg]
  refine ⟨h, ?_⟩
  simp only [py.Hash.hexdigest, hexEncode_length, h]

/-- C2.  For each of the six names, `hashlib_new(name)` returns an object
labelled with that name that wraps the fresh primitive of the matching
algorithm; its digest has 16, 20, 28, 32, 48 and 64 bytes for md5, sha1,
sha224, sha256, sha384 and sha512, and its hexdigest twice as many characters.
Every object a named constructor returns carries the constructor's name, the
matching primitive and the same lengths. -/
theorem hashlib_labels_and_lengths (conv : py.Object → Except py.Exception Bytes)
    (self : py.Object) :
    (hashlib_new conv self [.String "md5"] [] = .ok (py.NewHash "md5" md5.New) ∧
     hashlib_new conv self [.String "sha1"] [] = .ok (py.NewHash "sha1" sha1.New) ∧
     hashlib_new conv self [.String "sha224"] [] = .ok (py.NewHash "sha224" sha256.New224) ∧
     hashlib_new conv self [.String "sha256"] [] = .ok (py.NewHash "sha256" sha256.New) ∧
     hashlib_new conv self [.String "sha384"] [] = .ok (py.NewHash "sha384" sha512.New384) ∧
     hashlib_new conv self [.String "sha512"] [] = .ok (py.NewHash "sha512" sha512.New)) ∧
    ((py.NewHash "md5" md5.New).digest.length = 16 ∧
     (py.NewHash "sha1" sha1.New).digest.length = 20 ∧
     (py.NewHash "sha224" sha256.New224).digest.length = 28 ∧
     (py.NewHash "sha256" sha256.New).digest.length = 32 ∧
     (py.NewHash "sha384" sha512.New384).digest.length = 48 ∧
     (py.NewHash "sha512" sha512.New).digest.length = 64) ∧
    ((py.NewHash "md5" md5.New).hexdigest.length = 32 ∧
     (py.NewHash "sha1" sha1.New).hexdigest.length = 40 ∧
     (py.NewHash "sha224" sha256.New224).hexdigest.length = 56 ∧
     (py.NewHash "sha256" sha256.New).hexdigest.length = 64 ∧
     (py.NewHash "sha384" sha512.New384).hexdigest.length = 96 ∧
     (py.NewHash "sha512" sha512.New).hexdigest.length = 128) ∧
    (∀ args h, hashlib_md5 conv self args = .ok h →
      h.name = "md5" ∧ h.hasher.alg = .md5 ∧ h.digest.length = 16 ∧ h.hexdigest.length = 32) ∧
    (∀ args h, hashlib_sha1 conv self args = .ok h →
      h.name = "sha1" ∧ h.hasher.alg = .sha1 ∧ h.digest.length = 20 ∧
        h.hexdigest.length = 40) ∧
    (∀ args h, hashlib_sha224 conv self args = .ok h →
      h.name = "sha224" ∧ h.hasher.alg = .sha224 ∧ h.digest.length = 28 ∧
        h.hexdigest.length = 56) ∧
    (∀ arg h, hashlib_sha256 conv self arg = .ok h →
      h.name = "sha256" ∧ h.hasher.alg = .sha256 ∧ h.digest.length = 32 ∧
        h.hexdigest.length = 64) ∧
    (∀ arg h, hashlib_sha384 conv self arg = .ok h →
      h.name = "sha384" ∧ h.hasher.alg = .sha384 ∧ h.digest.length = 48 ∧
        h.hexdigest.length = 96) ∧
    (∀ arg h, hashlib_sha512 conv self arg = .ok h →
      h.name = "sha512" ∧ h.hasher.alg = .sha512 ∧ h.digest.length = 64 ∧
        h.hexdigest.length = 128) := by
  refine ⟨⟨rfl, rfl, rfl, rfl, rfl, rfl⟩, ?_, ?_, ?_, ?_, ?_, ?_, ?_, ?_⟩
  · exact ⟨(digest_lengths "md5" md5.New []).1, (digest_lengths "sha1" sha1.New []).1,
      (digest_lengths "sha224" sha256.New224 []).1, (digest_lengths "sha256" sha256.New []).1,
      (digest_lengths "sha384" sha512.New384 []).1, (digest_lengths "sha512" sha512.New []).1⟩
  · exact ⟨(digest_lengths "md5" md5.New []).2, (digest_lengths "sha1" sha1.New []).2,
      (digest_lengths "sha224" sha256.New224 []).2, (digest_lengths "sha256" sha256.New []).2,
      (digest_lengths "sha384" sha512.New384 []).2, (digest_lengths "sha512" sha512.New []).2⟩
  · intro args h hok
    obtain ⟨data, rfl⟩ := hashlib_md5_shape conv self args h hok
    exact ⟨rfl, rfl, digest_lengths "md5" md5.New data⟩
  · intro args h hok
    obtain ⟨data, rfl⟩ := hashlib_sha1_shape conv self args h hok
    exact ⟨rfl, rfl, digest_lengths "sha1" sha1.New data⟩
  · intro args h hok
    obtain ⟨data, rfl⟩ := hashlib_sha224_shape conv self args h hok
    exact ⟨rfl, rfl, digest_lengths "sha224" sha256.New224 data⟩
  · intro arg h hok
    rw [hashlib_sha256_eq] at hok
    cases hc : conv arg with
    | error e => rw [hc] at hok; exact absurd hok (by simp)
    | ok data =>
      rw [hc] at hok
      cases Except.ok.inj hok
      exact ⟨rfl, rfl, digest_lengths "sha256" sha256.New data⟩
  · intro arg h hok
    rw [hashlib_sha384_eq] at hok
    cases hc : conv arg with
    | error e => rw [hc] at hok; exact absurd hok (by simp)
    | ok data =>
      rw [hc] at hok
      cases Except.ok.inj hok
      exact ⟨rfl, rfl, digest_lengths "sha384" sha512.New384 data⟩
  · intro arg h hok
    rw [hashlib_sha512_eq] at hok
    cases hc : conv arg with
    | error e => rw [hc] at hok; exact absurd hok (by simp)
    | ok data =>
      rw [hc] at hok
      cases Except.ok.inj hok
      exact ⟨rfl, rfl, digest_lengths "sha512" sha512.New data⟩

theorem hashlib_labels_and_lengths_witness :
    hashlib_sha256 py.BytesFromObject .None (.Bytes [97, 98, 99])
        = .ok (py.NewHash "sha256" (sha256.New.Write [97, 98, 99])) ∧
      (py.NewHash "sha256" (sha256.New.Write [97, 98, 99])).name = "sha256" ∧
      (py.NewHash "sha256" (sha256.New.Write [97, 98, 99])).hasher.alg = .sha256 ∧
      (py.NewHash "sha256" (sha256.New.Write [97, 98, 99])).digest.length = 32 ∧
      (py.NewHash "sha256" (sha256.New.Write [97, 98, 99])).hexdigest.length = 64 :=
  ⟨rfl, (hashlib_labels_and_lengths py.BytesFromObject .None).2.2.2.2.2.2.1
    (.Bytes [97, 98, 99]) _ rfl⟩

/-! ## Construction with data against construction followed by `update` -/

/-- C3.  For a supported name and a byte string `data` (that the conversion
hands back as it is), `hashlib_new(name, data)` returns the object that
`hashlib_new(name)` returns after one `update(data)`: same label, same
primitive state, hence same digest and hexdigest.  With the data omitted or
empty the object holds the zero state of the algorithm, with nothing buffered
and no byte counted. -/
theorem hashlib_new_data_eq_update (conv : py.Object → Except py.Exception Bytes)
    (self : py.Object) (name : String) (data : Bytes)
    (hname : name ∈ supported) (hconv : conv (.Bytes data) = .ok data)
    (hnil : conv (.Bytes []) = .ok []) :
    ∃ z h0 h,
      zeroState name = some z ∧ z.x = [] ∧ z.len = 0 ∧
      hashlib_new conv self [.String name] [] = .ok h0 ∧
      h0 = py.NewHash name z ∧
      hashlib_new conv self [.String name, .Bytes []] [] = .ok h0 ∧
      hashlib_new conv self [.String name, .Bytes data] [] = .ok h ∧
      h = h0.update data ∧
      h.digest = (h0.update data).digest ∧
      h.hexdigest = (h0.update data).hexdigest := by
  have hsome : zeroState name ≠ none := fun hn => (zeroState_none_iff name).mp hn hname
  cases hz : zeroState name with
  | none => exact absurd hz hsome
  | some z =>
    have hw := zeroState_Write_nil name z hz
    have hfresh : z.x = [] ∧ z.len = 0 := by
      simp only [zeroState] at hz
      split at hz
      · cases hz; exact ⟨rfl, rfl⟩
      split at hz
      · cases hz; exact ⟨rfl, rfl⟩
      split at hz
      · cases hz; exact ⟨rfl, rfl⟩
      split at hz
      · cases hz; exact ⟨rfl, rfl⟩
      split at hz
      · cases hz; exact ⟨rfl, rfl⟩
      split at hz
      · cases hz; exact ⟨rfl, rfl⟩
      · exact absurd hz (by simp)
    refine ⟨z, py.NewHash name z, py.NewHash name (z.Write data), rfl, hfresh.1, hfresh.2,
      ?_, rfl, ?_, ?_, rfl, rfl, rfl⟩
    · rw [hashlib_new_name_only, hz]
      simp only [hw]
    · rw [hashlib_new_name_bytes conv self name [] hnil, hz]
      simp only [hw]
    · rw [hashlib_new_name_bytes conv self name data hconv, hz]

theorem hashlib_new_data_eq_update_witness :
    ∃ z h0 h,
      zeroState "sha256" = some z ∧ z.x = [] ∧ z.len = 0 ∧
      hashlib_new py.BytesFromObject .None [.String "sha256"] [] = .ok h0 ∧
      h0 = py.NewHash "sha256" z ∧
      hashlib_new py.BytesFromObject .None [.String "sha256", .Bytes []] [] = .ok h0 ∧
      hashlib_new py.BytesFromObject .None [.String "sha256", .Bytes [97, 98, 99]] [] = .ok h ∧
      h = h0.update [97, 98, 99] ∧
      h.digest = (h0.update [97, 98, 99]).digest ∧
      h.hexdigest = (h0.update [97, 98, 99]).hexdigest :=
  hashlib_new_data_eq_update py.BytesFromObject .None "sha256" [97, 98, 99] (by decide) rfl rfl

/-! ## Order of argument conversion and name resolution -/

/-- C6 (counterexample).  For the unsupported name `foo` and the data argument
`5`, `hashlib_new` does not fail with the unsupported-algorithm error of `foo`:
the data argument is checked first and its `TypeError` is what is raised. -/
theorem hashlib_new_checks_data_first :
    "foo" ∉ supported ∧
    hashlib_new py.BytesFromObject .None [.String "foo", .Int 5] []
      = .error ⟨.TypeError, "new() argument 2 must be bytes-like, not int"⟩ ∧
    hashlib_new py.BytesFromObject .None [.String "foo", .Int 5] []
      ≠ .error (unsupportedError "foo") := by
  refine ⟨by decide, by rfl, ?_⟩
  have h : hashlib_new py.BytesFromObject .None [.String "foo", .Int 5] []
      = .error ⟨.TypeError, "new() argument 2 must be bytes-like, not int"⟩ := by rfl
  rw [h]
  intro hEq
  have hb := congrArg py.Exception.Base (Except.error.inj hEq)
  exact absurd hb (by decide)

/-- C6 (amended).  For a name outside the six, `hashlib_new` fails with the
unsupported-algorithm error of that name when the data argument is absent or is
a bytes object that converts; a data argument that is not a bytes object, or
whose conversion fails, is reported first, with the error of the argument
check or of the conversion. -/
theorem hashlib_new_unsupported_after_data (conv : py.Object → Except py.Exception Bytes)
    (self : py.Object) (name : String) (hname : name ∉ supported) :
    hashlib_new conv self [.String name] [] = .error (unsupportedError name) ∧
    (∀ b, conv (.Bytes b) = .ok b →
      hashlib_new conv self [.String name, .Bytes b] [] = .error (unsupportedError name)) ∧
    (∀ d, d.Type ≠ .BytesType →
      hashlib_new conv self [.String name, d] [] =
        .error ⟨.TypeError, "new() argument 2 must be bytes-like, not " ++ d.Type.Name⟩) ∧
    (∀ b err, conv (.Bytes b) = .error err →
      hashlib_new conv self [.String name, .Bytes b] [] = .error err) := by
  have hz := (zeroState_none_iff name).mpr hname
  refine ⟨?_, ?_, ?_, ?_⟩
  · rw [hashlib_new_name_only, hz]
  · intro b hb
    rw [hashlib_new_name_bytes conv self name b hb, hz]
  · intro d hd
    exact hashlib_new_not_bytes conv self name d hd
  · intro b err hb
    exact hashlib_new_conversion_error conv self name b err hb

theorem hashlib_new_unsupported_after_data_witness :
    hashlib_new py.BytesFromObject .None [.String "foo"] [] = .error (unsupportedError "foo") ∧
    (∀ b, py.BytesFromObject (.Bytes b) = .ok b →
      hashlib_new py.BytesFromObject .None [.String "foo", .Bytes b] []
        = .error (unsupportedError "foo")) ∧
    (∀ d, d.Type ≠ .BytesType →
      hashlib_new py.BytesFromObject .None [.String "foo", d] [] =
        .error ⟨.TypeError, "new() argument 2 must be bytes-like, not " ++ d.Type.Name⟩) ∧
    (∀ b err, py.BytesFromObject (.Bytes b) = .error err →
      hashlib_new py.BytesFromObject .None [.String "foo", .Bytes b] [] = .error err) :=
  hashlib_new_unsupported_after_data py.BytesFromObject .None "foo" (by decide)

/-- C7.  For a supported name and a data argument that cannot be read as a byte
sequence (it is not a bytes object, or its conversion fails), `hashlib_new`
fails and returns no object.  The error is that of the argument check, a
`TypeError` and so never the unsupported-algorithm `ValueError`, or the
error of the conversion itself; it is the same for every name, since it is
raised before the switch constructs a primitive. -/
theorem hashlib_new_type_mismatch (conv : py.Object → Except py.Exception Bytes)
    (self : py.Object) (name : String) (d : py.Object) (hname : name ∈ supported)
    (hbad : d.Type ≠ .BytesType ∨ ∃ e, conv d = .error e) :
    ∃ err,
      hashlib_new conv self [.String name, d] [] = .error err ∧
      (∀ h, hashlib_new conv self [.String name, d] [] ≠ .ok h) ∧
      (d.Type ≠ .BytesType → err.Base = .TypeError ∧ ∀ n, err ≠ unsupportedError n) ∧
      (d.Type = .BytesType → conv d = .error err) ∧
      (∀ other, hashlib_new conv self [.String other, d] [] = .error err) := by
  by_cases hd : d.Type = .BytesType
  · obtain ⟨e, he⟩ := hbad.resolve_left (fun h => h hd)
    cases d with
    | Bytes b =>
      have hr := fun n => hashlib_new_conversion_error conv self n b e he
      refine ⟨e, hr name, ?_, fun h => absurd hd h, fun _ => he, hr⟩
      intro h; rw [hr name]; simp
    | None => exact absurd hd (by simp [py.Object.Type])
    | Bool b => exact absurd hd (by simp [py.Object.Type])
    | Int n => exact absurd hd (by simp [py.Object.Type])
    | String s => exact absurd hd (by simp [py.Object.Type])
  · have hr := fun n => hashlib_new_not_bytes conv self n d hd
    refine ⟨_, hr name, ?_, fun _ => ⟨rfl, ?_⟩, fun h => absurd h hd, hr⟩
    · intro h; rw [hr name]; simp
    · intro n hEq
      have hb : py.ExceptionType.TypeError = py.ExceptionType.ValueError :=
        congrArg py.Exception.Base hEq
      exact absurd hb (by decide)

theorem hashlib_new_type_mismatch_witness :
    ∃ err,
      hashlib_new py.BytesFromObject .None [.String "md5", .Int 5] [] = .error err ∧
      (∀ h, hashlib_new py.BytesFromObject .None [.String "md5", .Int 5] [] ≠ .ok h) ∧
      ((py.Object.Int 5).Type ≠ .BytesType →
        err.Base = .TypeError ∧ ∀ n, err ≠ unsupportedError n) ∧
      ((py.Object.Int 5).Type = .BytesType → py.BytesFromObject (.Int 5) = .error err) ∧
      (∀ other, hashlib_new py.BytesFromObject .None [.String other, .Int 5] [] = .error err) :=
  hashlib_new_type_mismatch py.BytesFromObject .None "md5" (.Int 5) (by decide)
    (Or.inl (by decide))

/-! ## Repeated `update` calls -/

/-- One `update` followed by further ones equals a single `update` with the
payloads concatenated in call order. -/
theorem foldl_update (ds : List Bytes) : ∀ (h : py.Hash) (d : Bytes),
    ds.foldl py.Hash.update (h.update d) = h.update (d ++ ds.flatten) := by
  induction ds with
  | nil => intro h d; simp
  | cons e ds ih =>
    intro h d
    have hstep : (h.update d).update e = h.update (d ++ e) := by
      simp only [py.Hash.update, Write_Write]
    simp only [List.foldl_cons, List.flatten_cons, hstep, ih, List.append_assoc]

/-- C8.  `update(a)` then `update(b)` leaves a hash object in the state, and so
with the digest and hexdigest, of a single `update(a ++ b)` on the same
starting object; one or more successive updates equal one update with the
concatenation of their payloads in call order, and on the fresh object of each
supported name this also holds for no update at all. -/
theorem update_concat (h : py.Hash) (a b : Bytes) :
    (h.update a).update b = h.update (a ++ b) ∧
    ((h.update a).update b).digest = (h.update (a ++ b)).digest ∧
    ((h.update a).update b).hexdigest = (h.update (a ++ b)).hexdigest ∧
    (∀ d ds, (d :: ds).foldl py.Hash.update h = h.update (d :: ds).flatten) ∧
    (∀ name z (ds : List Bytes), zeroState name = some z →
      ds.foldl py.Hash.update (py.NewHash name z) = (py.NewHash name z).update ds.flatten) := by
  have hstep : (h.update a).update b = h.update (a ++ b) := by
    simp only [py.Hash.update, Write_Write]
  refine ⟨hstep, by rw [hstep], by rw [hstep], ?_, ?_⟩
  · intro d ds
    simp only [List.foldl_cons, List.flatten_cons, foldl_update]
  · intro name z ds hz
    cases ds with
    | nil =>
      simp only [List.foldl_nil, List.flatten_nil, py.Hash.update, py.NewHash,
        zeroState_Write_nil name z hz]
    | cons d ds => simp only [List.foldl_cons, List.flatten_cons, foldl_update]

theorem update_concat_witness :
    [[1, 2], [], [3]].foldl py.Hash.update (py.NewHash "md5" md5.New)
      = (py.NewHash "md5" md5.New).update [1, 2, 3] ∧
    ([] : List Bytes).foldl py.Hash.update (py.NewHash "md5" md5.New)
      = (py.NewHash "md5" md5.New).update [] :=
  ⟨(update_concat (py.NewHash "md5" md5.New) [] []).2.2.2.2 "md5" md5.New [[1, 2], [], [3]] rfl,
   (update_concat (py.NewHash "md5" md5.New) [] []).2.2.2.2 "md5" md5.New [] rfl⟩

/-! ## The documented sha224 example -/

/-- C9.  The sha224 constructor applied to the bytes of
`Nobody inspects the spammish repetition` returns an object labelled `sha224`
that holds the SHA-224 primitive, and whose hexdigest is the 56-character
string `a4337bc45a8fc544c03f52dc550cd6e1e87021bc896588bd79e901e2`. -/
theorem sha224_documented_example (conv : py.Object → Except py.Exception Bytes)
    (self : py.Object)
    (hconv : conv (.Bytes "Nobody inspects the spammish repetition".toUTF8.data.toList)
      = .ok "Nobody inspects the spammish repetition".toUTF8.data.toList) :
    ∃ h,
      hashlib_sha224 conv self
        [.Bytes "Nobody inspects the spammish repetition".toUTF8.data.toList] = .ok h ∧
      h.name = "sha224" ∧ h.hasher.alg = .sha224 ∧
      h.hexdigest = "a4337bc45a8fc544c03f52dc550cd6e1e87021bc896588bd79e901e2" ∧
      h.hexdigest.length = 56 := by
  refine ⟨py.NewHash "sha224"
    (sha256.New224.Write "Nobody inspects the spammish repetition".toUTF8.data.toList),
    ?_, rfl, rfl, by decide, by decide⟩
  simp only [hashlib_sha224, UnpackTuple_one]
  simp only [bind, Except.bind, List.getD, List.get?, Option.getD, py.Object.Type, pure,
    Except.pure, hconv]

theorem sha224_documented_example_witness :
    ∃ h,
      hashlib_sha224 py.BytesFromObject .None
        [.Bytes "Nobody inspects the spammish repetition".toUTF8.data.toList] = .ok h ∧
      h.name = "sha224" ∧ h.hasher.alg = .sha224 ∧
      h.hexdigest = "a4337bc45a8fc544c03f52dc550cd6e1e87021bc896588bd79e901e2" ∧
      h.hexdigest.length = 56 :=
  sha224_documented_example py.BytesFromObject .None rfl

/-! ## Strictness of the named constructors -/

/-- C10.  For a data value whose type is neither bytes nor text, `hashlib_sha1`
and `hashlib_sha224` raise no error and return the zero-state object, the one
they return for no argument.  `hashlib_sha256`, `hashlib_sha384` and
`hashlib_sha512` always run the bytes conversion: they fail with its error when
it fails, and write its result once when it succeeds. -/
theorem named_constructors_strictness (conv : py.Object → Except py.Exception Bytes)
    (self : py.Object) :
    (∀ d, d.Type ≠ .BytesType → d.Type ≠ .StringType →
      hashlib_sha1 conv self [d] = .ok (py.NewHash "sha1" sha1.New) ∧
      hashlib_sha1 conv self [d] = hashlib_sha1 conv self [] ∧
      hashlib_sha224 conv self [d] = .ok (py.NewHash "sha224" sha256.New224) ∧
      hashlib_sha224 conv self [d] = hashlib_sha224 conv self []) ∧
    (∀ arg err, conv arg = .error err →
      hashlib_sha256 conv self arg = .error err ∧
      hashlib_sha384 conv self arg = .error err ∧
      hashlib_sha512 conv self arg = .error err) ∧
    (∀ arg data, conv arg = .ok data →
      hashlib_sha256 conv self arg = .ok (py.NewHash "sha256" (sha256.New.Write data)) ∧
      hashlib_sha384 conv self arg = .ok (py.NewHash "sha384" (sha512.New384.Write data)) ∧
      hashlib_sha512 conv self arg = .ok (py.NewHash "sha512" (sha512.New.Write data))) := by
  refine ⟨?_, ?_, ?_⟩
  · intro d hb hs
    cases d with
    | Bytes b => exact absurd rfl hb
    | String s => exact absurd rfl hs
    | None => exact ⟨rfl, rfl, rfl, rfl⟩
    | Bool b => exact ⟨rfl, rfl, rfl, rfl⟩
    | Int n => exact ⟨rfl, rfl, rfl, rfl⟩
  · intro arg err he
    rw [hashlib_sha256_eq, hashlib_sha384_eq, hashlib_sha512_eq, he]
    exact ⟨rfl, rfl, rfl⟩
  · intro arg data hd
    rw [hashlib_sha256_eq, hashlib_sha384_eq, hashlib_sha512_eq, hd]
    exact ⟨rfl, rfl, rfl⟩

theorem named_constructors_strictness_witness :
    (hashlib_sha1 py.BytesFromObject .None [.Int 5] = .ok (py.NewHash "sha1" sha1.New) ∧
     hashlib_sha1 py.BytesFromObject .None [.Int 5] = hashlib_sha1 py.BytesFromObject .None [] ∧
     hashlib_sha224 py.BytesFromObject .None [.Int 5]
       = .ok (py.NewHash "sha224" sha256.New224) ∧
     hashlib_sha224 py.BytesFromObject .None [.Int 5]
       = hashlib_sha224 py.BytesFromObject .None []) ∧
    (hashlib_sha256 py.BytesFromObject .None (.Int 5)
       = .error ⟨.TypeError, "cannot convert int object to bytes"⟩ ∧
     hashlib_sha384 py.BytesFromObject .None (.Int 5)
       = .error ⟨.TypeError, "cannot convert int object to bytes"⟩ ∧
     hashlib_sha512 py.BytesFromObject .None (.Int 5)
       = .error ⟨.TypeError, "cannot convert int object to bytes"⟩) :=
  ⟨(named_constructors_strictness py.BytesFromObject .None).1 (.Int 5) (by decide) (by decide),
   (named_constructors_strictness py.BytesFromObject .None).2.1 (.Int 5) _ rfl⟩

/-! ## Where the named constructors leave the generic constructor -/

/-- C4 (evaluation at the failing input).  For the data argument `5`,
`hashlib_sha1` succeeds with the zero-state sha1 object while
`hashlib_new("sha1", 5)` fails with a `TypeError`; `hashlib_md5`, which routes
through `hashlib_new`, fails like `hashlib_new("md5", 5)`. -/
theorem sha1_differs_from_new :
    hashlib_sha1 py.BytesFromObject .None [.Int 5] = .ok (py.NewHash "sha1" sha1.New) ∧
    hashlib_new py.BytesFromObject .None [.String "sha1", .Int 5] []
      = .error ⟨.TypeError, "new() argument 2 must be bytes-like, not int"⟩ ∧
    hashlib_md5 py.BytesFromObject .None [.Int 5]
      = hashlib_new py.BytesFromObject .None [.String "md5", .Int 5] [] := by
  refine ⟨by rfl, by rfl, by rfl⟩

/-- C5 (evaluation at the failing input).  Called with no argument through the
method table, `md5`, `sha1` and `sha224` return the zero-state object, while
`sha256`, `sha384` and `sha512`, registered as functions of exactly one
object, fail with a `TypeError`; `new` with the same names succeeds. -/
theorem sha256_needs_an_argument :
    callModule py.BytesFromObject "md5" .None [] = some (.ok (py.NewHash "md5" md5.New)) ∧
    callModule py.BytesFromObject "sha1" .None [] = some (.ok (py.NewHash "sha1" sha1.New)) ∧
    callModule py.BytesFromObject "sha224" .None []
      = some (.ok (py.NewHash "sha224" sha256.New224)) ∧
    callModule py.BytesFromObject "sha256" .None []
      = some (.error ⟨.TypeError, "sha256() takes exactly 1 argument (0 given)"⟩) ∧
    callModule py.BytesFromObject "sha384" .None []
      = some (.error ⟨.TypeError, "sha384() takes exactly 1 argument (0 given)"⟩) ∧
    callModule py.BytesFromObject "sha512" .None []
      = some (.error ⟨.TypeError, "sha512() takes exactly 1 argument (0 given)"⟩) ∧
    callModule py.BytesFromObject "new" .None [.String "sha256"]
      = some (.ok (py.NewHash "sha256" sha256.New)) := by
  refine ⟨by rfl, by rfl, by rfl, by rfl, by rfl, by rfl, by rfl⟩

/-! ## Further properties of the dispatch layer -/

/-- For a name outside the six that holds no `%`, `hashlib_new` fails with the
`ValueError` whose message is `unsupported hash type ` followed by the name. -/
theorem hashlib_new_unsupported_message (conv : py.Object → Except py.Exception Bytes)
    (self : py.Object) (name : String) (hname : name ∉ supported)
    (hplain : '%' ∉ name.toList) :
    hashlib_new conv self [.String name] [] =
      .error ⟨.ValueError, "unsupported hash type " ++ name⟩ := by
  rw [hashlib_new_name_only, (zeroState_none_iff name).mpr hname,
    ← unsupportedError_plain name hplain]

theorem hashlib_new_unsupported_message_witness :
    hashlib_new py.BytesFromObject .None [.String "unknownalgo"] [] =
      .error ⟨.ValueError, "unsupported hash type " ++ "unknownalgo"⟩ :=
  hashlib_new_unsupported_message py.BytesFromObject .None "unknownalgo" (by decide)
    (by decide)

/-- The example of the module documentation: an md5 object updated with
`Nobody inspects` and then with ` the spammish repetition` has the digest
`bb649c83dd1ea5c9d9dec9a18df0ffe9`, that of the whole sentence in one piece. -/
theorem md5_documented_example :
    ∃ m,
      hashlib_md5 py.BytesFromObject .None [] = .ok m ∧
      ((m.update "Nobody inspects".toUTF8.data.toList).update
          " the spammish repetition".toUTF8.data.toList).digest
        = [0xbb, 0x64, 0x9c, 0x83, 0xdd, 0x1e, 0xa5, 0xc9,
           0xd9, 0xde, 0xc9, 0xa1, 0x8d, 0xf0, 0xff, 0xe9] ∧
      (m.update "Nobody inspects the spammish repetition".toUTF8.data.toList).digest
        = [0xbb, 0x64, 0x9c, 0x83, 0xdd, 0x1e, 0xa5, 0xc9,
           0xd9, 0xde, 0xc9, 0xa1, 0x8d, 0xf0, 0xff, 0xe9] :=
  ⟨py.NewHash "md5" md5.New, by rfl, by decide, by decide⟩

/-- `hashlib_md5` is `hashlib_new` with `"md5"` put in front of its arguments:
the two have the same outcome for every argument tuple. -/
theorem hashlib_md5_routes_through_new (conv : py.Object → Except py.Exception Bytes)
    (self : py.Object) (args : py.Tuple) :
    hashlib_md5 conv self args = hashlib_new conv self (.String "md5" :: args) [] := rfl

set_option maxRecDepth 8000 in
/-- The hexdigest of the fresh object of each supported name is the well-known
digest of the empty input of its algorithm. -/
theorem empty_input_digests :
    (py.NewHash "md5" md5.New).hexdigest
      = "d41d8cd98f00b204e9800998ecf8427e" ∧
    (py.NewHash "sha1" sha1.New).hexdigest
      = "da39a3ee5e6b4b0d3255bfef95601890afd80709" ∧
    (py.NewHash "sha224" sha256.New224).hexdigest
      = "d14a028c2a3a2bc9476102bb288234c415a2b01f828ea62ac5b3e42f" ∧
    (py.NewHash "sha256" sha256.New).hexdigest
      = "e3b0c44298fc1c149afbf4c8996fb92427ae41e4649b934ca495991b7852b855" ∧
    (py.NewHash "sha384" sha512.New384).hexdigest
      = "38b060a751ac96384cd9327eb1b1e36a21fdb71114be07434c0cc7bf63f6e1da274edebfe76f65fbd51ad2f14898b95b" ∧
    (py.NewHash "sha512" sha512.New).hexdigest
      = "cf83e1357eefb8bdf1542850d66d8007d620e4050b5715dc83f4a921d36ce9ce47d0d13c5d85f2b0ff8318d2877eec2f63b931bd47417a81a538327af927da3e" := by
  refine ⟨by decide, by decide, by decide, by decide, by decide, by decide⟩

end Hashlib
